import Mathlib

/-!
Shallow embedding of the `codex_verifier` package (preflight.py, models.py,
parsers.py, validators.py, exec_pool.py, runner.py) and proofs about it.

Modelling conventions:
* Python `str` is Lean `String` (a list of characters); slicing and `len`
  count characters.
* Python floats are modelled as exact rationals (`ℚ`); `round(x, 2)` is
  round-half-to-even on the exact value, as Python's `round` performs on
  the decimal value of its argument.
* Python dicts with a known key set are structures whose absent keys are
  `Option`-valued fields; `d.get(k, v)` is `Option.getD`.
* Functions that can raise are `Except String`; the error string is the
  exception message.
* The parser/validator registries of runner.py are modelled on the entries
  exercised by the theorems below (`parse_meminfo`, `total_mem_within_pct`,
  `all_expected_dimms`); lookups of the remaining registered names are not
  modelled and fall through to `none`.
-/

/-! ### Python string primitives -/

/-- Does the second list start with the first one?  (`str.startswith`.) -/
def listStartsWith : List Char → List Char → Bool
  | [], _ => true
  | _ :: _, [] => false
  | p :: ps, c :: cs => p == c && listStartsWith ps cs

/-- Substring containment, Python's `p in s`. -/
def listContainsSub (p : List Char) : List Char → Bool
  | [] => p.isEmpty
  | c :: cs => listStartsWith p (c :: cs) || listContainsSub p cs

/-- Character-wise lower-casing, Python's `str.lower` on ASCII text. -/
def pyLower (s : String) : String := ⟨s.data.map Char.toLower⟩

/-- Python's `str.strip()`: drop leading and trailing whitespace. -/
def pyStrip (s : String) : String :=
  ⟨((s.data.dropWhile Char.isWhitespace).reverse.dropWhile Char.isWhitespace).reverse⟩

/-- Helper for `pySplitWs`: accumulate the current word (reversed). -/
def pySplitWsAux : List Char → List Char → List String
  | [], acc => if acc.isEmpty then [] else [⟨acc.reverse⟩]
  | c :: cs, acc =>
    if c.isWhitespace then
      if acc.isEmpty then pySplitWsAux cs []
      else ⟨acc.reverse⟩ :: pySplitWsAux cs []
    else pySplitWsAux cs (c :: acc)

/-- Python's `str.split()`: split on whitespace runs, dropping empty parts. -/
def pySplitWs (s : String) : List String := pySplitWsAux s.data []

/-- Python's `s[:n]` on strings: the first `n` characters. -/
def pyTake (s : String) (n : ℕ) : String := ⟨s.data.take n⟩

/-- Round to the nearest integer, ties to the even integer
(the rounding Python's `round` applies to the exact value). -/
def roundHalfEvenZ (x : ℚ) : ℤ :=
  if x - (⌊x⌋ : ℚ) < 1/2 then ⌊x⌋
  else if (1/2 : ℚ) < x - (⌊x⌋ : ℚ) then ⌊x⌋ + 1
  else if 2 ∣ ⌊x⌋ then ⌊x⌋ else ⌊x⌋ + 1

/-- Python's `round(x, 2)` on the exact value of `x`. -/
def pyRound2 (x : ℚ) : ℚ := (roundHalfEvenZ (x * 100) : ℚ) / 100

/-- Python's `x or y` for an optional number: `None` and `0` are falsy. -/
def pyOrQ (a b : Option ℚ) : Option ℚ :=
  match a with
  | some q => if q = 0 then b else some q
  | none => b

/-- Python's `repr` of a list of strings, e.g. `['A1', 'B2']`. -/
def pyReprStrList (l : List String) : String :=
  let quote : String := ⟨[Char.ofNat 39]⟩
  "[" ++ String.intercalate ", " (l.map (fun s => quote ++ s ++ quote)) ++ "]"

/-! ### models.py -/

/-- A DIMM record as produced by `parse_dmidecode` (keys read by
`all_expected_dimms`; `d.get("ecc")` is falsy when absent, hence `Bool`). -/
structure Dimm where
  slot : String
  size_gib : Option ℚ := none
  speed_mt : Option ℤ := none
  ecc : Bool := false
deriving DecidableEq

/-- An expected-DIMM record handed to `all_expected_dimms`
(`e["slot"]`, `e["size_gib"]` are required keys; `speed_mt`, `ecc` read
with `e.get`, `ecc` defaulting to `True`). -/
structure ExpDimm where
  slot : String
  size_gib : ℚ
  speed_mt : Option ℤ := none
  ecc : Option Bool := none
deriving DecidableEq

/-- The nested map `context["expected"]`. -/
structure CtxExpected where
  total_gib : Option ℚ := none
deriving DecidableEq

/-- The free-form `ToDoDSL.context` map, modelled by the keys the code
consults. -/
structure Ctx where
  expected_total_gib : Option ℚ := none
  expected : Option CtxExpected := none
  pct : Option ℚ := none
  component : Option String := none
  expected_dimms : Option (List ExpDimm) := none
deriving DecidableEq

/-- `ToDoStep` of models.py; the `args` dict is modelled by its only
consulted key, `"iface"`. -/
structure ToDoStep where
  id : String
  action : String
  iface_arg : Option String := none
  timeout_s : ℤ := 10
  parser : Option String := none
  validator : Option String := none
deriving DecidableEq

/-- `ToDoDSL` of models.py (target flattened to its only field `host`;
prechecks/postchecks/success_criteria are never read by the verified code). -/
structure ToDoDSL where
  job_id : String
  profile : String := "verify_readonly"
  host : String
  context : Ctx := {}
  steps : List ToDoStep
deriving DecidableEq

/-- `ExecStep` of models.py. -/
structure ExecStep where
  id : String
  cmd : String
  timeout_s : ℤ
  parser : Option String := none
  validator : Option String := none
deriving DecidableEq

/-- `RawResult` of models.py. -/
structure RawResult where
  step_id : String
  exit_code : ℤ
  stdout : String
  stderr : String
  duration_ms : ℕ
  truncated : Bool := false
deriving DecidableEq

/-- One entry of `VerificationDetail.per_step` as built by the runner:
`{"id": ..., "ok": ..., "notes": ...}`. -/
structure PerStep where
  id : String
  ok : Bool
  notes : String
deriving DecidableEq

/-- `VerificationResult` of models.py (details flattened to `per_step`;
the runner always passes `evidence=[]`). -/
structure VerificationResult where
  status : String
  summary : String
  per_step : List PerStep
deriving DecidableEq

/-! ### preflight.py: catalog, policy gate, static audit -/

/-- One value of `catalog.actions` (`entry.get("read_only", False)` and
`entry.get("requires_sudo")` are falsy when absent, hence `Bool` fields). -/
structure CatalogAction where
  cmd : String
  read_only : Bool := false
  requires_sudo : Bool := false
  parser : Option String := none
deriving DecidableEq

/-- One value of `catalog.profiles`. -/
structure CatalogProfile where
  max_timeout_s : ℤ
  allow_sudo : List String := []
deriving DecidableEq

/-- The `Catalog` object: its `actions` and `profiles` dicts. -/
structure Catalog where
  actions : List (String × CatalogAction)
  profiles : List (String × CatalogProfile)

/-- Dict lookup `catalog.actions.get(name)`. -/
def Catalog.action (cat : Catalog) (name : String) : Option CatalogAction :=
  (cat.actions.find? (fun p => p.1 == name)).map (·.2)

/-- Dict lookup `catalog.profiles.get(name)` / `catalog.profiles[name]`. -/
def Catalog.profile (cat : Catalog) (name : String) : Option CatalogProfile :=
  (cat.profiles.find? (fun p => p.1 == name)).map (·.2)

/-- `DENY_PATTERNS` of preflight.py. -/
def DENY_PATTERNS : List String :=
  [" rm ", " mkfs", " dd ", " :()\x7b:|:&\x7d;:", "shutdown", "reboot",
   "iptables", "sysctl -w ", "chown ", "chmod "]

/-- The sudo-binary extraction inside `policy_gate`:
`a["cmd"].split()[2] if a["cmd"].startswith("sudo") else ""`.
A template starting with `sudo` but having fewer than three
whitespace-separated tokens makes the Python expression raise `IndexError`. -/
def sudoBinOf (cmd : String) : Except String String :=
  if listStartsWith "sudo".data cmd.data then
    match (pySplitWs cmd).get? 2 with
    | some t => .ok t
    | none => .error "IndexError: list index out of range"
  else .ok ""

/-- The per-step loop of `policy_gate`. -/
def policyCheckSteps (prof : CatalogProfile) (cat : Catalog) :
    List ToDoStep → Except String Unit
  | [] => .ok ()
  | s :: rest =>
    match cat.action s.action with
    | none => .error ("Unknown action " ++ s.action)
    | some a =>
      if a.read_only = false then
        .error ("Action " ++ s.action ++ " is not read-only")
      else if a.requires_sudo then
        match sudoBinOf a.cmd with
        | .error e => .error e
        | .ok b =>
          if b ∈ prof.allow_sudo then policyCheckSteps prof cat rest
          else .error ("sudo binary not allowed for action " ++ s.action ++ ": " ++ b)
      else policyCheckSteps prof cat rest

/-- `policy_gate` of preflight.py. -/
def policy_gate (dsl : ToDoDSL) (cat : Catalog) : Except String Unit :=
  match cat.profile dsl.profile with
  | none => .error ("Unknown profile " ++ dsl.profile)
  | some prof => policyCheckSteps prof cat dsl.steps

/-- `static_audit` of preflight.py: `low` is `f" {exec_cmd} ".lower()`, and
the loop raises at the first deny pattern contained in it. -/
def static_audit (exec_cmd : String) : Except String Unit :=
  match DENY_PATTERNS.find?
      (fun p => listContainsSub p.data (pyLower (" " ++ exec_cmd ++ " ")).data) with
  | some p => .error ("Denied pattern in cmd: " ++ pyStrip p)
  | none => .ok ()

/-- The spec's wording for the sudo check: "the token following `sudo`
in the template" — i.e. the second whitespace token.  Stated from the
spec, for comparison with `sudoBinOf` above, which the source computes. -/
def specSudoToken (cmd : String) : Option String := (pySplitWs cmd).get? 1

/-! ### parsers.py (the entry exercised by the claims: `parse_meminfo`) -/

/-- A parsed-facts dict, modelled by the keys the verified validators and
the runner's fallback record use. -/
structure ParsedMap where
  total_gib : Option ℚ := none
  dimms : Option (List (Option Dimm)) := none
  raw_len : Option ℕ := none
deriving DecidableEq

/-- Decimal digits to a number. -/
def digitsToNat (ds : List Char) : ℕ :=
  ds.foldl (fun n c => 10 * n + (c.toNat - 48)) 0

/-- Match the regex `MemTotal:\s+(\d+)\s+kB` anchored at the head of `cs`,
returning the captured number. -/
def matchMemTotalHere (cs : List Char) : Option ℕ :=
  if listStartsWith "MemTotal:".data cs then
    let rest := cs.drop 9
    let ws1 := rest.takeWhile Char.isWhitespace
    if ws1.isEmpty then none else
    let rest1 := rest.drop ws1.length
    let ds := rest1.takeWhile Char.isDigit
    if ds.isEmpty then none else
    let rest2 := rest1.drop ds.length
    let ws2 := rest2.takeWhile Char.isWhitespace
    if ws2.isEmpty then none else
    let rest3 := rest2.drop ws2.length
    if listStartsWith "kB".data rest3 then some (digitsToNat ds) else none
  else none

/-- `re.search` for the pattern above: leftmost position where it matches. -/
def findMemTotal : List Char → Option ℕ
  | [] => none
  | c :: cs =>
    match matchMemTotalHere (c :: cs) with
    | some n => some n
    | none => findMemTotal cs

/-- `parse_meminfo` of parsers.py. -/
def parse_meminfo (text : String) : ParsedMap :=
  let gib : ℚ :=
    match findMemTotal text.data with
    | some k => (k : ℚ) / 1048576
    | none => 0
  { total_gib := some (pyRound2 gib) }

/-! ### validators.py -/

/-- `ok_note` of validators.py. -/
def ok_note (ok : Bool) (note : String) : Bool × String := (ok, note)

/-- Rendering of a number inside a note string (abstracts Python's float
repr; no theorem depends on the rendering). -/
def qStr (q : ℚ) : String := toString q

/-- `total_mem_within_pct` of validators.py with numeric arguments.
`actual` is `parsed.get("total_gib", 0) or 0`; the trailing `or 0` only
re-maps falsy values and is the identity on the number obtained. -/
def total_mem_within_pct (parsed : ParsedMap) (expected_gib : ℚ := 16)
    (pct : ℚ := 2) : Bool × String :=
  let actual : ℚ := parsed.total_gib.getD 0
  ok_note (decide (|actual - expected_gib| ≤ expected_gib * (pct / 100)))
    ("MemTotal " ++ qStr actual ++ " GiB vs expected " ++ qStr expected_gib
      ++ " ±" ++ qStr pct ++ "%")

/-- The tuple set `have` built by `all_expected_dimms` (a list models the
Python set; only membership is used). -/
def haveTuples (parsed : ParsedMap) : List (String × ℚ × Option ℤ × Bool) :=
  ((parsed.dimms.getD []).filterMap id).map
    (fun d => (d.slot, pyRound2 (d.size_gib.getD 0), d.speed_mt, d.ecc))

/-- The tuple built from one expected DIMM. -/
def expTuple (e : ExpDimm) : String × ℚ × Option ℤ × Bool :=
  (e.slot, pyRound2 e.size_gib, e.speed_mt, e.ecc.getD true)

/-- The `missing` list accumulated by the loop of `all_expected_dimms`. -/
def missingSlots (parsed : ParsedMap) (expected_dimms : List ExpDimm) :
    List String :=
  expected_dimms.foldl
    (fun acc e => if expTuple e ∈ haveTuples parsed then acc else acc ++ [e.slot])
    []

/-- `all_expected_dimms` of validators.py. -/
def all_expected_dimms (parsed : ParsedMap) (expected_dimms : List ExpDimm) :
    Bool × String :=
  let missing := missingSlots parsed expected_dimms
  let ok := decide (missing.length = 0)
  ok_note ok
    (if ok then "All DIMMs present"
     else "Missing/mismatch: " ++ pyReprStrList missing)

/-! ### exec_pool.py -/

def OUTPUT_CAP : ℕ := 262144
def ERR_CAP : ℕ := 131072

/-- The observable outcome of one remote command, covering the three paths
of `run_cmd`: normal completion, `asyncio.TimeoutError`, other exception. -/
inductive CmdOutcome where
  | success (exit_status : ℤ) (stdout : String) (stderr : String)
  | timeout
  | failure (message : String)

/-- `run_cmd` of exec_pool.py, as a function of the command's outcome and
its measured wall-clock duration. -/
def runCmd (oc : CmdOutcome) (dur_ms : ℕ) : RawResult :=
  match oc with
  | .success exit out err =>
      { step_id := "", exit_code := exit,
        stdout := pyTake out OUTPUT_CAP, stderr := pyTake err ERR_CAP,
        duration_ms := dur_ms,
        truncated := decide (out.data.length > OUTPUT_CAP)
          || decide (err.data.length > ERR_CAP) }
  | .timeout =>
      { step_id := "", exit_code := 124, stdout := "", stderr := "TIMEOUT",
        duration_ms := dur_ms }
  | .failure msg =>
      { step_id := "", exit_code := 255, stdout := "", stderr := msg,
        duration_ms := dur_ms }

/-- The typed SSE events of the runner. -/
inductive Event where
  | plan_preview (steps : List ExecStep)
  | step_start (id : String) (cmd : String)
  | step_result (id : String) (exit : ℤ) (ms : ℕ)
  | verdict (status : String) (summary : String)
deriving DecidableEq

def Event.isVerdict : Event → Bool
  | .verdict _ _ => true
  | _ => false

/-- The loop of `execute_plan` from step index `i` on; `env` gives each
step's remote outcome and duration. -/
def executePlanFrom (env : ℕ → CmdOutcome × ℕ) :
    ℕ → List ExecStep → List RawResult × List Event
  | _, [] => ([], [])
  | i, s :: rest =>
    let rr := { runCmd (env i).1 (env i).2 with step_id := s.id }
    let tail := executePlanFrom env (i + 1) rest
    (rr :: tail.1,
     Event.step_start s.id s.cmd
       :: Event.step_result s.id rr.exit_code rr.duration_ms :: tail.2)

/-- `execute_plan` of exec_pool.py: the per-step results and the events
sent to the `on_event` sink, in emission order. -/
def execute_plan (env : ℕ → CmdOutcome × ℕ) (steps : List ExecStep) :
    List RawResult × List Event :=
  executePlanFrom env 0 steps

/-- The fallback step `critic_propose_patch` may append. -/
def criticPatchStep (iface : Option String) : ToDoStep :=
  { id := "s_fallback_sysfs", action := "read_sysfs_nic", iface_arg := iface,
    timeout_s := 5, parser := some "parse_sysfs_nic", validator := none }

/-- `critic_propose_patch` of exec_pool.py, rendered purely (the Python
function mutates `dsl.steps` in place and returns the same object); the
failure dict is modelled by its only consulted key, `failure.get("parser")`. -/
def critic_propose_patch (dsl : ToDoDSL) (failedParserKey : Option String) :
    Option ToDoDSL :=
  if dsl.context.component = some "nic" ∧ failedParserKey = some "parse_ethtool" then
    let iface : Option String :=
      match dsl.steps.find? (fun s => listStartsWith "read_nic".data s.action.data) with
      | some s => s.iface_arg
      | none => some "eth0"
    let patch := criticPatchStep iface
    if dsl.steps.any (fun s => s.id == patch.id) then none
    else some { dsl with steps := dsl.steps ++ [patch] }
  else none

/-! ### runner.py: validator-spec parsing, judging, events -/

/-- A literal argument produced by `_parse_validator_spec` or by the
context-default logic of `_run_job_thread` (`none` models Python's `None`
when a context key chain found nothing; `dimms` carries the
`expected_dimms` context default). -/
inductive PyArg where
  | int (n : ℤ)
  | float (q : ℚ)
  | str (s : String)
  | none
  | dimms (l : List ExpDimm)
deriving DecidableEq

/-- `str.isdigit` on an argument token. -/
def allDigits (cs : List Char) : Bool := !cs.isEmpty && cs.all Char.isDigit

/-- Shape of a simple float literal: optional sign, digits, at most one
point.  Abstracts Python's `float()`, which additionally accepts exponent
and infinity forms no validator reference uses. -/
def simpleFloatShape (cs : List Char) : Bool :=
  let cs1 := match cs with
    | c :: rest => if c == '-' || c == '+' then rest else c :: rest
    | [] => []
  let ip := cs1.takeWhile Char.isDigit
  let rest := cs1.drop ip.length
  match rest with
  | [] => !ip.isEmpty
  | c :: frac => c == '.' && frac.all Char.isDigit && (!ip.isEmpty || !frac.isEmpty)

/-- Exact value of a simple float literal. -/
def floatValOf (cs : List Char) : ℚ :=
  let sign : ℚ := match cs with
    | c :: _ => if c == '-' then -1 else 1
    | [] => 1
  let cs1 := match cs with
    | c :: rest => if c == '-' || c == '+' then rest else c :: rest
    | [] => []
  let ip := cs1.takeWhile Char.isDigit
  let rest := cs1.drop ip.length
  let frac := match rest with | _ :: f => f | [] => []
  sign * ((digitsToNat ip : ℚ) + (digitsToNat frac : ℚ) / (10 : ℚ) ^ frac.length)

/-- The best-effort cast of `_parse_validator_spec`: `int` if all digits,
else `float` if `float()` accepts it, else the raw string. -/
def castArg (s : String) : PyArg :=
  if allDigits s.data then .int (digitsToNat s.data)
  else if simpleFloatShape s.data then .float (floatValOf s.data)
  else .str s

/-- `"a,b".split(",")` (keeps empty parts; the caller filters them). -/
def splitOnCommaAux : List Char → List Char → List String
  | [], acc => [⟨acc.reverse⟩]
  | c :: cs, acc =>
    if c == ',' then ⟨acc.reverse⟩ :: splitOnCommaAux cs []
    else splitOnCommaAux cs (c :: acc)

/-- `_parse_validator_spec` of runner.py: `(name, args)` from `"name"` or
`"name(x,y)"`. -/
def parse_validator_spec (spec : String) : String × List PyArg :=
  if listContainsSub "(".data spec.data then
    let name : String := ⟨spec.data.takeWhile (fun c => c != '(')⟩
    let rest := (spec.data.dropWhile (fun c => c != '(')).drop 1
    let rest := (rest.reverse.dropWhile (fun c => c == ')')).reverse
    let raw := ((splitOnCommaAux rest []).map pyStrip).filter (fun a => !a.data.isEmpty)
    (name, raw.map castArg)
  else (spec, [])

/-- `PARSERS` of runner.py, restricted to the entry the theorems below
exercise; the remaining registered names are not modelled. -/
def PARSERS (name : String) : Option (String → ParsedMap) :=
  if name = "parse_meminfo" then some parse_meminfo else none

/-- Coerce a dynamic argument to a number; a `None` or string argument
makes the arithmetic inside `total_mem_within_pct` raise `TypeError`. -/
def pyArgToQ : PyArg → Except String ℚ
  | .int n => .ok (n : ℚ)
  | .float q => .ok q
  | _ => .error "TypeError: unsupported operand type"

/-- `total_mem_within_pct` as called dynamically by the runner
(`vfn(parsed, *args)`, with the Python defaults for omitted arguments). -/
def total_mem_dyn (parsed : ParsedMap) (args : List PyArg) :
    Except String (Bool × String) :=
  match args with
  | [] => .ok (total_mem_within_pct parsed 16 2)
  | [e] =>
    match pyArgToQ e with
    | .error msg => .error msg
    | .ok a => .ok (total_mem_within_pct parsed a 2)
  | [e, p] =>
    match pyArgToQ e with
    | .error msg => .error msg
    | .ok a =>
      match pyArgToQ p with
      | .error msg => .error msg
      | .ok b => .ok (total_mem_within_pct parsed a b)
  | _ => .error "TypeError: too many positional arguments"

/-- `all_expected_dimms` as called dynamically by the runner. -/
def all_expected_dimms_dyn (parsed : ParsedMap) (args : List PyArg) :
    Except String (Bool × String) :=
  match args with
  | [.dimms l] => .ok (all_expected_dimms parsed l)
  | [_] => .error "TypeError: not a list of dimm dicts"
  | _ => .error "TypeError: wrong number of arguments"

/-- `VALIDATORS` of runner.py, restricted to the entries the theorems
below exercise; the remaining registered names are not modelled. -/
def VALIDATORS (name : String) :
    Option (ParsedMap → List PyArg → Except String (Bool × String)) :=
  if name = "total_mem_within_pct" then some total_mem_dyn
  else if name = "all_expected_dimms" then some all_expected_dimms_dyn
  else none

/-- The nested lookup `ctx.get("expected", {}).get("total_gib")`. -/
def ctxNestedExpected (ctx : Ctx) : Option ℚ :=
  match ctx.expected with
  | some m => m.total_gib
  | none => none

/-- The `PyArg` for an optional context value (`None` when the key chain
found nothing). -/
def argOfOpt : Option ℚ → PyArg
  | some q => .float q
  | none => .none

/-- One iteration of the `for step, rr in zip(plan.steps, raw)` loop of
`_run_job_thread`: parse, then validate; an uncaught exception is `.error`. -/
def judgeStep (ctx : Ctx) (step : ExecStep) (rr : RawResult) :
    Except String PerStep :=
  let parsed : ParsedMap :=
    match step.parser with
    | none => { raw_len := some rr.stdout.data.length }
    | some pname =>
      match PARSERS pname with
      | some f => f rr.stdout
      | none => { raw_len := some rr.stdout.data.length }
  match step.validator with
  | none => .ok { id := step.id, ok := true, notes := "" }
  | some vspec =>
    let pv := parse_validator_spec vspec
    let vname := pv.1
    let args0 := pv.2
    match VALIDATORS vname with
    | none => .ok { id := step.id, ok := false, notes := "Unknown validator " ++ vname }
    | some vfn =>
      let args :=
        if vname = "total_mem_within_pct" ∧ args0 = [] then
          [argOfOpt (pyOrQ ctx.expected_total_gib (ctxNestedExpected ctx)),
           .float (ctx.pct.getD 2)]
        else if vname = "all_expected_dimms" ∧ args0 = [] then
          [.dimms (ctx.expected_dimms.getD [])]
        else args0
      match vfn parsed args with
      | .error e => .error e
      | .ok r => .ok { id := step.id, ok := r.1, notes := r.2 }

/-- The whole parse-and-validate loop of `_run_job_thread`. -/
def judgeSteps (ctx : Ctx) : List (ExecStep × RawResult) → Except String (List PerStep)
  | [] => .ok []
  | x :: rest =>
    match judgeStep ctx x.1 x.2 with
    | .error e => .error e
    | .ok p =>
      match judgeSteps ctx rest with
      | .error e => .error e
      | .ok ps => .ok (p :: ps)

/-- `_run_job_thread` of runner.py as a function of the per-step remote
outcomes: the events put on the job's queue, and the stored result —
`none` when the judging phase raises, which kills the worker thread
before the verdict is emitted or the result slot is written. -/
def runJob (ctx : Ctx) (steps : List ExecStep) (env : ℕ → CmdOutcome × ℕ) :
    List Event × Option VerificationResult :=
  let ex := execute_plan env steps
  match judgeSteps ctx (steps.zip ex.1) with
  | .error _ => (ex.2, none)
  | .ok per_step =>
    let ok_all := per_step.all (·.ok)
    let status := if ok_all then "SUCCESS" else "FAILED"
    let summary := if ok_all then "All criteria passed."
                   else "One or more criteria failed."
    (ex.2 ++ [Event.verdict status summary],
     some { status := status, summary := summary, per_step := per_step })

/-- The queue-draining loop of the `stream_events` generator: yield queued
events until (and including) the first verdict.  (On a queue with no
verdict the real generator blocks forever waiting for more events; the
theorems below apply this only to completed jobs, whose queue ends with a
verdict.) -/
def takeThroughVerdict : List Event → List Event
  | [] => []
  | e :: rest => if e.isVerdict then [e] else e :: takeThroughVerdict rest

/-- `stream_events` of runner.py replayed from scratch over a completed
job's queued events: the initial `plan_preview`, then the queued events
through the first verdict. -/
def streamReplay (steps : List ExecStep) (queued : List Event) : List Event :=
  Event.plan_preview steps :: takeThroughVerdict queued

/-- Number of verdict events in a stream. -/
def countVerdicts (evs : List Event) : ℕ := (evs.filter Event.isVerdict).length

/-! ### Concrete instances used by the closed theorems below -/

/-- A catalog action with a plain `sudo <binary> ...` template. -/
def act1 : CatalogAction :=
  { cmd := "sudo dmidecode -t memory", read_only := true, requires_sudo := true,
    parser := some "parse_dmidecode" }

def prof1 : CatalogProfile := { max_timeout_s := 30, allow_sudo := ["dmidecode"] }

def cat1 : Catalog :=
  { actions := [("read_dmidecode", act1)], profiles := [("verify_readonly", prof1)] }

def dsl1 : ToDoDSL :=
  { job_id := "j1", profile := "verify_readonly", host := "h",
    steps := [{ id := "s1", action := "read_dmidecode" }] }

/-- The single step of the spec's memory-verification scenario, as compiled
for judging. -/
def scenStep : ExecStep :=
  { id := "s1", cmd := "cat /proc/meminfo", timeout_s := 10,
    parser := some "parse_meminfo", validator := some "total_mem_within_pct(16,2)" }

def scenOut : String := "MemTotal: 16384000 kB"

def scenEnv : ℕ → CmdOutcome × ℕ := fun _ => (.success 0 scenOut "", 7)

/-- A two-step plan whose first step times out. -/
def wStepA : ExecStep := { id := "a", cmd := "cmd-a", timeout_s := 1 }
def wStepB : ExecStep := { id := "b", cmd := "cmd-b", timeout_s := 1 }
def wEnv : ℕ → CmdOutcome × ℕ :=
  fun i => if i = 0 then (.timeout, 1500) else (.success 0 "ok" "", 3)

/-- A validator-less single-step job that completes. -/
def plainStep : ExecStep := { id := "p1", cmd := "uname -a", timeout_s := 5 }
def plainEnv : ℕ → CmdOutcome × ℕ := fun _ => (.success 0 "Linux" "", 2)

/-- A step referencing the memory validator by bare name. -/
def bareStep : ExecStep :=
  { id := "m1", cmd := "cat /proc/meminfo", timeout_s := 10,
    parser := some "parse_meminfo", validator := some "total_mem_within_pct" }

/-- A NIC DSL the critic patches, and its patched form. -/
def nicStep : ToDoStep :=
  { id := "n1", action := "read_nic_ethtool", iface_arg := some "eth1",
    parser := some "parse_ethtool", validator := some "nic_link_up" }

def nicDsl : ToDoDSL :=
  { job_id := "jn", host := "h", context := { component := some "nic" },
    steps := [nicStep] }

def nicDslPatched : ToDoDSL :=
  { nicDsl with steps := nicDsl.steps ++ [criticPatchStep (some "eth1")] }

/-- DIMM samples: inventory holding slot A1, expectations for A1 and B1. -/
def dimmA : Dimm :=
  { slot := "A1", size_gib := some 16, speed_mt := some 3200, ecc := true }
def expA : ExpDimm :=
  { slot := "A1", size_gib := 16, speed_mt := some 3200, ecc := some true }
def expB : ExpDimm :=
  { slot := "B1", size_gib := 16, speed_mt := some 3200, ecc := some true }
def dimmParsed : ParsedMap := { dimms := some [some dimmA] }

/-- The note the memory validator renders in the scenario run. -/
def scenNote : String :=
  "MemTotal " ++ qStr (781/50 : ℚ) ++ " GiB vs expected " ++ qStr ((16 : ℤ) : ℚ)
    ++ " ±" ++ qStr ((2 : ℤ) : ℚ) ++ "%"

/-- The events the scenario job puts on its queue. -/
def scenEvents : List Event :=
  [Event.step_start "s1" "cat /proc/meminfo", Event.step_result "s1" 0 7,
   Event.verdict "FAILED" "One or more criteria failed."]

/-- The verification result the scenario job stores. -/
def scenResult : VerificationResult :=
  { status := "FAILED", summary := "One or more criteria failed.",
    per_step := [{ id := "s1", ok := false, notes := scenNote }] }

/-- The events of the completed validator-less job. -/
def plainEvents : List Event :=
  [Event.step_start "p1" "uname -a", Event.step_result "p1" 0 2,
   Event.verdict "SUCCESS" "All criteria passed."]

/-- The result of the completed validator-less job. -/
def plainResult : VerificationResult :=
  { status := "SUCCESS", summary := "All criteria passed.",
    per_step := [{ id := "p1", ok := true, notes := "" }] }

/-! ### Helper lemmas -/

theorem executePlanFrom_length (env : ℕ → CmdOutcome × ℕ) :
    ∀ (steps : List ExecStep) (base : ℕ),
      ((executePlanFrom env base steps).1).length = steps.length := by
  intro steps
  induction steps with
  | nil => intro base; simp [executePlanFrom]
  | cons s rest ih => intro base; simp [executePlanFrom, ih (base + 1)]

theorem executePlanFrom_get? (env : ℕ → CmdOutcome × ℕ) :
    ∀ (steps : List ExecStep) (base j : ℕ),
      (executePlanFrom env base steps).1.get? j =
        (steps.get? j).map
          (fun s => { runCmd (env (base + j)).1 (env (base + j)).2 with step_id := s.id }) := by
  intro steps
  induction steps with
  | nil => intro base j; simp [executePlanFrom]
  | cons s rest ih =>
    intro base j
    cases j with
    | zero => simp [executePlanFrom]
    | succ j =>
      have h := ih (base + 1) j
      simp only [executePlanFrom, List.get?_cons_succ, h]
      have : base + 1 + j = base + (j + 1) := by omega
      rw [this]

/-! ### C5 -/

/-- C5: every `RawResult` built by `run_cmd` from captured remote output has
its stored stdout at most 262144 characters and stderr at most 131072
characters, and `truncated` is set exactly when an untruncated stream
exceeded its cap. -/
theorem runCmd_output_caps (exit : ℤ) (out err : String) (dur : ℕ) :
    (runCmd (.success exit out err) dur).stdout.data.length ≤ OUTPUT_CAP ∧
    (runCmd (.success exit out err) dur).stderr.data.length ≤ ERR_CAP ∧
    ((runCmd (.success exit out err) dur).truncated = true ↔
      OUTPUT_CAP < out.data.length ∨ ERR_CAP < err.data.length) := by
  refine ⟨?_, ?_, ?_⟩
  · simp [runCmd, pyTake]
  · simp [runCmd, pyTake]
  · simp [runCmd]

/-! ### C4 -/

/-- C4: in `execute_plan`, a timed-out step yields a `RawResult` with exit
code 124 and stderr `"TIMEOUT"`, and every step of the plan — the later
ones included — still gets executed with its own outcome. -/
theorem execute_plan_timeout_isolated (env : ℕ → CmdOutcome × ℕ)
    (steps : List ExecStep) (i : ℕ) (hi : i < steps.length)
    (ht : (env i).1 = CmdOutcome.timeout) :
    (execute_plan env steps).1.length = steps.length ∧
    (∃ r, (execute_plan env steps).1.get? i = some r ∧
      r.exit_code = 124 ∧ r.stderr = "TIMEOUT") ∧
    (∀ j s, steps.get? j = some s →
      (execute_plan env steps).1.get? j =
        some { runCmd (env j).1 (env j).2 with step_id := s.id }) := by
  refine ⟨executePlanFrom_length env steps 0, ?_, ?_⟩
  · refine ⟨{ runCmd (env i).1 (env i).2 with step_id := (steps.get ⟨i, hi⟩).id },
      ?_, ?_, ?_⟩
    · have hg := executePlanFrom_get? env steps 0 i
      rw [List.get?_eq_get hi] at hg
      simpa [execute_plan] using hg
    · simp [runCmd, ht]
    · simp [runCmd, ht]
  · intro j s hj
    have hg := executePlanFrom_get? env steps 0 j
    rw [hj] at hg
    simpa [execute_plan] using hg

/-- Witness for C4 at a concrete two-step plan whose first step times out:
the hypotheses hold and the second step still ran. -/
theorem execute_plan_timeout_isolated_witness :
    (0 < [wStepA, wStepB].length ∧ (wEnv 0).1 = CmdOutcome.timeout) ∧
    ((execute_plan wEnv [wStepA, wStepB]).1.length = [wStepA, wStepB].length ∧
     (∃ r, (execute_plan wEnv [wStepA, wStepB]).1.get? 0 = some r ∧
       r.exit_code = 124 ∧ r.stderr = "TIMEOUT") ∧
     (∀ j s, [wStepA, wStepB].get? j = some s →
       (execute_plan wEnv [wStepA, wStepB]).1.get? j =
         some { runCmd (wEnv j).1 (wEnv j).2 with step_id := s.id })) :=
  ⟨⟨by decide, rfl⟩,
   execute_plan_timeout_isolated wEnv [wStepA, wStepB] 0 (by decide) rfl⟩

/-! ### C2 -/

/-- C2 counterexample: `"rm -rf /"` contains no deny-listed substring
(in particular not `" rm "`, for lack of a leading space), yet
`static_audit` rejects it, because the audit pads the command with spaces
before matching. -/
theorem static_audit_raw_containment_cex :
    (∀ p ∈ DENY_PATTERNS, listContainsSub p.data "rm -rf /".data = false) ∧
    static_audit "rm -rf /" = .error "Denied pattern in cmd: rm" :=
  ⟨by decide, rfl⟩

/-- C2 amended: `static_audit` succeeds iff the space-padded, lower-cased
rendering of the command contains none of the deny-listed substrings
(and raises naming the first matched pattern otherwise). -/
theorem static_audit_ok_iff (cmd : String) :
    static_audit cmd = .ok () ↔
      ∀ p ∈ DENY_PATTERNS,
        listContainsSub p.data (pyLower (" " ++ cmd ++ " ")).data = false := by
  unfold static_audit
  cases h : DENY_PATTERNS.find?
      (fun p => listContainsSub p.data (pyLower (" " ++ cmd ++ " ")).data) with
  | none =>
    simp only []
    constructor
    · intro _ p hp
      have hf := List.find?_eq_none.mp h p hp
      simpa using hf
    · intro _; trivial
  | some p =>
    simp only []
    constructor
    · intro habs; exact Except.noConfusion habs
    · intro hall
      have hp := List.find?_some h
      have hmem := List.mem_of_find?_eq_some h
      simp [hall p hmem] at hp

/-! ### C1 -/

/-- The per-step success characterization of the policy gate's loop. -/
theorem policyCheckSteps_ok_iff (prof : CatalogProfile) (cat : Catalog) :
    ∀ steps : List ToDoStep,
      policyCheckSteps prof cat steps = .ok () ↔
        ∀ s ∈ steps, ∃ a, cat.action s.action = some a ∧ a.read_only = true ∧
          (a.requires_sudo = true →
            ∃ b, sudoBinOf a.cmd = .ok b ∧ b ∈ prof.allow_sudo) := by
  intro steps
  induction steps with
  | nil => simp [policyCheckSteps]
  | cons s rest ih =>
    simp only [policyCheckSteps]
    cases ha : cat.action s.action with
    | none => simp [ha]
    | some a =>
      cases hro : a.read_only with
      | false => simp [ha, hro]
      | true =>
        cases hrs : a.requires_sudo with
        | false => simp [ha, hro, hrs, ih]
        | true =>
          cases hsb : sudoBinOf a.cmd with
          | error e => simp [ha, hro, hrs, hsb]
          | ok b =>
            by_cases hb : b ∈ prof.allow_sudo
            · simp [ha, hro, hrs, hsb, hb, ih]
            · simp [ha, hro, hrs, hsb, hb]

/-- C1 amended: `policy_gate` raises no error iff the profile exists and
every step's action exists, is read-only, and, when it requires sudo, the
check token — the third whitespace token of the template when it starts
with `sudo` (an index error when it has fewer than three tokens), the
empty string otherwise — is in the profile's `allow_sudo` list. -/
theorem policy_gate_ok_iff (dsl : ToDoDSL) (cat : Catalog) :
    policy_gate dsl cat = .ok () ↔
      ∃ prof, cat.profile dsl.profile = some prof ∧
        ∀ s ∈ dsl.steps, ∃ a, cat.action s.action = some a ∧ a.read_only = true ∧
          (a.requires_sudo = true →
            ∃ b, sudoBinOf a.cmd = .ok b ∧ b ∈ prof.allow_sudo) := by
  unfold policy_gate
  cases hp : cat.profile dsl.profile with
  | none => simp [hp]
  | some prof => simp [hp, policyCheckSteps_ok_iff]

/-- C1 counterexample: for the catalog whose sudo template is
`sudo dmidecode -t memory` with `dmidecode` allow-listed, every condition
of the claim's no-error case holds — the action exists, is read-only, and
the token following `sudo` is allow-listed — yet `policy_gate` raises,
because the code checks `split()[2]` (here `-t`), not the token after
`sudo`. -/
theorem policy_gate_sudo_token_cex :
    cat1.profile "verify_readonly" = some prof1 ∧
    cat1.action "read_dmidecode" = some act1 ∧
    act1.read_only = true ∧
    act1.requires_sudo = true ∧
    specSudoToken act1.cmd = some "dmidecode" ∧
    "dmidecode" ∈ prof1.allow_sudo ∧
    policy_gate dsl1 cat1 =
      .error "sudo binary not allowed for action read_dmidecode: -t" :=
  ⟨rfl, rfl, rfl, rfl, rfl, by decide, rfl⟩

/-! ### C9 -/

/-- C9: `critic_propose_patch` never removes steps — when it returns a DSL,
that DSL's steps are the original ones with exactly one step appended (so
at most one) — and it is idempotent: on a DSL already containing the
fallback step id it returns nothing. -/
theorem critic_propose_patch_appends (dsl : ToDoDSL) (fp : Option String) :
    (∀ d, critic_propose_patch dsl fp = some d →
      ∃ p, d.steps = dsl.steps ++ [p]) ∧
    ((∃ s ∈ dsl.steps, s.id = "s_fallback_sysfs") →
      critic_propose_patch dsl fp = none) := by
  constructor
  · intro d hd
    simp only [critic_propose_patch] at hd
    split at hd
    · split at hd
      · cases hd
      · cases hd
        exact ⟨_, rfl⟩
    · cases hd
  · rintro ⟨s, hs, hid⟩
    simp only [critic_propose_patch]
    split
    · split
      · rfl
      · rename_i hany
        exact absurd (List.any_eq_true.mpr ⟨s, hs, by simp [criticPatchStep, hid]⟩)
          hany
    · rfl

/-- Witness for C9: the critic appends the sysfs fallback to a concrete NIC
DSL, and on the patched DSL — which contains the fallback id — it returns
nothing. -/
theorem critic_propose_patch_appends_witness :
    critic_propose_patch nicDsl (some "parse_ethtool") = some nicDslPatched ∧
    (∃ s ∈ nicDslPatched.steps, s.id = "s_fallback_sysfs") ∧
    critic_propose_patch nicDslPatched (some "parse_ethtool") = none :=
  ⟨rfl, ⟨criticPatchStep (some "eth1"), by decide, rfl⟩,
   (critic_propose_patch_appends nicDslPatched (some "parse_ethtool")).2
     ⟨criticPatchStep (some "eth1"), by decide, rfl⟩⟩

/-! ### C7 -/

/-- C7: on a parsed meminfo record with value `g`,
`total_mem_within_pct(·, 16, 2)` reports ok exactly when `g` lies in the
closed interval `[15.68, 16.32]`; in particular it reports not-ok at 15. -/
theorem total_mem_within_pct_interval (g : ℚ) :
    ((total_mem_within_pct { total_gib := some g } 16 2).1 = true ↔
      (15.68 : ℚ) ≤ g ∧ g ≤ (16.32 : ℚ)) ∧
    (total_mem_within_pct { total_gib := some 15 } 16 2).1 = false := by
  constructor
  · simp only [total_mem_within_pct, ok_note, Option.getD_some, decide_eq_true_eq]
    rw [abs_le,
      show (15.68 : ℚ) = 1568/100 from by norm_num,
      show (16.32 : ℚ) = 1632/100 from by norm_num]
    constructor
    · rintro ⟨h1, h2⟩
      constructor <;> linarith
    · rintro ⟨h1, h2⟩
      constructor <;> linarith
  · simp only [total_mem_within_pct, ok_note, Option.getD_some,
      decide_eq_false_iff_not]
    rw [abs_le]
    rintro ⟨h1, _⟩
    linarith

/-! ### C8 -/

/-- The `missing` accumulator of `all_expected_dimms` equals the slots of
the expected records whose tuple is absent from the parsed inventory. -/
theorem missingSlots_eq (p : ParsedMap) :
    ∀ (es : List ExpDimm) (acc : List String),
      es.foldl
        (fun acc e => if expTuple e ∈ haveTuples p then acc else acc ++ [e.slot])
        acc =
      acc ++ (es.filter (fun e => decide (expTuple e ∉ haveTuples p))).map (·.slot) := by
  intro es
  induction es with
  | nil => intro acc; simp
  | cons e rest ih =>
    intro acc
    by_cases h : expTuple e ∈ haveTuples p
    · simp [List.foldl_cons, h, ih]
    · simp [List.foldl_cons, h, ih]

/-- C8: `all_expected_dimms` reports ok = false exactly when some expected
DIMM tuple is absent from the parsed inventory, ok = true exactly when all
are present, its missing list is exactly the slot names of the absent
expected DIMMs in order, and the note renders that list. -/
theorem all_expected_dimms_missing (p : ParsedMap) (es : List ExpDimm)
    (hne : es ≠ []) :
    ((all_expected_dimms p es).1 = false ↔
      ∃ e ∈ es, expTuple e ∉ haveTuples p) ∧
    ((all_expected_dimms p es).1 = true ↔
      ∀ e ∈ es, expTuple e ∈ haveTuples p) ∧
    missingSlots p es =
      (es.filter (fun e => decide (expTuple e ∉ haveTuples p))).map (·.slot) ∧
    (all_expected_dimms p es).2 =
      (if missingSlots p es = [] then "All DIMMs present"
       else "Missing/mismatch: " ++ pyReprStrList (missingSlots p es)) := by
  have hms : missingSlots p es =
      (es.filter (fun e => decide (expTuple e ∉ haveTuples p))).map (·.slot) := by
    have h := missingSlots_eq p es []
    simpa [missingSlots] using h
  refine ⟨?_, ?_, hms, ?_⟩
  · simp only [all_expected_dimms, ok_note, decide_eq_false_iff_not, hms]
    simp [List.length_eq_zero, List.filter_eq_nil_iff, List.map_eq_nil_iff]
  · simp only [all_expected_dimms, ok_note, decide_eq_true_eq, hms]
    simp [List.length_eq_zero, List.filter_eq_nil_iff, List.map_eq_nil_iff]
  · by_cases hnil : missingSlots p es = []
    · simp [all_expected_dimms, ok_note, hnil]
    · simp [all_expected_dimms, ok_note, hnil, List.length_eq_zero]

/-- Witness for C8 at a concrete inventory holding only slot A1 while A1
and B1 are expected. -/
theorem all_expected_dimms_missing_witness :
    ([expA, expB] : List ExpDimm) ≠ [] ∧
    (((all_expected_dimms dimmParsed [expA, expB]).1 = false ↔
       ∃ e ∈ [expA, expB], expTuple e ∉ haveTuples dimmParsed) ∧
     ((all_expected_dimms dimmParsed [expA, expB]).1 = true ↔
       ∀ e ∈ [expA, expB], expTuple e ∈ haveTuples dimmParsed) ∧
     missingSlots dimmParsed [expA, expB] =
       ([expA, expB].filter
         (fun e => decide (expTuple e ∉ haveTuples dimmParsed))).map (·.slot) ∧
     (all_expected_dimms dimmParsed [expA, expB]).2 =
       (if missingSlots dimmParsed [expA, expB] = [] then "All DIMMs present"
        else "Missing/mismatch: "
          ++ pyReprStrList (missingSlots dimmParsed [expA, expB]))) :=
  ⟨by decide, all_expected_dimms_missing dimmParsed [expA, expB] (by decide)⟩

/-! ### Event-stream helper lemmas -/

theorem executePlanFrom_no_verdict (env : ℕ → CmdOutcome × ℕ) :
    ∀ (steps : List ExecStep) (base : ℕ),
      ∀ e ∈ (executePlanFrom env base steps).2, e.isVerdict = false := by
  intro steps
  induction steps with
  | nil => intro base e he; simp [executePlanFrom] at he
  | cons s rest ih =>
    intro base e he
    simp only [executePlanFrom, List.mem_cons] at he
    rcases he with rfl | rfl | hmem
    · rfl
    · rfl
    · exact ih (base + 1) e hmem

theorem countVerdicts_of_no_verdict {evs : List Event}
    (h : ∀ e ∈ evs, e.isVerdict = false) : countVerdicts evs = 0 := by
  unfold countVerdicts
  rw [List.filter_eq_nil_iff.mpr (fun e he => by simp [h e he])]
  rfl

theorem countVerdicts_append_verdict {evs : List Event} (st sm : String)
    (h : ∀ e ∈ evs, e.isVerdict = false) :
    countVerdicts (evs ++ [Event.verdict st sm]) = 1 := by
  unfold countVerdicts
  rw [List.filter_append,
    List.filter_eq_nil_iff.mpr (fun e he => by simp [h e he])]
  rfl

theorem takeThroughVerdict_append {evs : List Event} (st sm : String)
    (h : ∀ e ∈ evs, e.isVerdict = false) :
    takeThroughVerdict (evs ++ [Event.verdict st sm]) =
      evs ++ [Event.verdict st sm] := by
  induction evs with
  | nil => rfl
  | cons e rest ih =>
    have he : e.isVerdict = false := h e (List.mem_cons_self e rest)
    have ih2 := ih (fun x hx => h x (List.mem_cons_of_mem e hx))
    rw [List.cons_append]
    unfold takeThroughVerdict
    rw [he, if_neg Bool.false_ne_true, ih2]

theorem judgeSteps_ok_all (ctx : Ctx) :
    ∀ (l : List (ExecStep × RawResult)) (ps : List PerStep),
      judgeSteps ctx l = .ok ps →
        ∀ pr ∈ l, ∃ r, judgeStep ctx pr.1 pr.2 = .ok r := by
  intro l
  induction l with
  | nil => intro ps _ pr hpr; cases hpr
  | cons x rest ih =>
    intro ps h pr hpr
    simp only [judgeSteps] at h
    cases hx : judgeStep ctx x.1 x.2 with
    | error e => rw [hx] at h; cases h
    | ok p0 =>
      rw [hx] at h
      cases hr : judgeSteps ctx rest with
      | error e => rw [hr] at h; cases h
      | ok ps0 =>
        rcases List.mem_cons.mp hpr with rfl | hmem
        · exact ⟨p0, hx⟩
        · exact ih ps0 hr pr hmem

/-! ### C6 -/

/-- C6: a job that reaches completion emits exactly one verdict event, the
verdict is the last event emitted, and replaying the stream from scratch
yields the plan preview, the job's events, and nothing after the verdict
(the replayed stream also ends at its single verdict). -/
theorem completed_job_verdict (ctx : Ctx) (steps : List ExecStep)
    (env : ℕ → CmdOutcome × ℕ) (evs : List Event) (res : VerificationResult)
    (h : runJob ctx steps env = (evs, some res)) :
    countVerdicts evs = 1 ∧
    (∃ st sm, evs.getLast? = some (Event.verdict st sm)) ∧
    streamReplay steps evs = Event.plan_preview steps :: evs ∧
    (∃ st sm, (streamReplay steps evs).getLast? = some (Event.verdict st sm)) := by
  simp only [runJob] at h
  cases hj : judgeSteps ctx (steps.zip (execute_plan env steps).1) with
  | error e =>
    rw [hj] at h
    simp at h
  | ok per =>
    rw [hj] at h
    simp only [Prod.mk.injEq] at h
    obtain ⟨hev, -⟩ := h
    have hnv : ∀ e ∈ (execute_plan env steps).2, e.isVerdict = false :=
      executePlanFrom_no_verdict env steps 0
    subst hev
    refine ⟨countVerdicts_append_verdict _ _ hnv,
      ⟨_, _, List.getLast?_concat _⟩, ?_, ?_⟩
    · unfold streamReplay
      rw [takeThroughVerdict_append _ _ hnv]
    · unfold streamReplay
      rw [takeThroughVerdict_append _ _ hnv, ← List.cons_append]
      exact ⟨_, _, List.getLast?_concat _⟩

/-- Witness for C6: a concrete completed single-step job; its stream has
one verdict, last, and the replay ends there. -/
theorem completed_job_verdict_witness :
    runJob {} [plainStep] plainEnv = (plainEvents, some plainResult) ∧
    (countVerdicts plainEvents = 1 ∧
     (∃ st sm, plainEvents.getLast? = some (Event.verdict st sm)) ∧
     streamReplay [plainStep] plainEvents =
       Event.plan_preview [plainStep] :: plainEvents ∧
     (∃ st sm, (streamReplay [plainStep] plainEvents).getLast? =
       some (Event.verdict st sm))) :=
  ⟨rfl, completed_job_verdict {} [plainStep] plainEnv plainEvents plainResult rfl⟩

/-! ### C10 -/

/-- A step that names the memory validator bare, judged in a context whose
expectation keys are both absent, raises `TypeError` (the validator is
called with `expected_gib=None`). -/
theorem judgeStep_bare_total_mem_error (ctx : Ctx) (step : ExecStep)
    (rr : RawResult) (hv : step.validator = some "total_mem_within_pct")
    (hexp : ctx.expected_total_gib = none)
    (hnested : ctxNestedExpected ctx = none) :
    judgeStep ctx step rr = .error "TypeError: unsupported operand type" := by
  have hps : parse_validator_spec "total_mem_within_pct" =
      ("total_mem_within_pct", []) := by decide
  simp only [judgeStep, hv, hps, hexp, hnested, pyOrQ, argOfOpt, VALIDATORS,
    total_mem_dyn, pyArgToQ, if_pos, and_self, reduceIte]

/-- C10: when a plan step references `total_mem_within_pct` by bare name
and the job context carries neither `expected_total_gib` nor
`expected.total_gib`, the judging phase raises an unhandled exception in
the background worker, so the job stores no result and emits no verdict
event. -/
theorem bare_validator_kills_job (ctx : Ctx) (steps : List ExecStep)
    (env : ℕ → CmdOutcome × ℕ)
    (hexp : ctx.expected_total_gib = none)
    (hnested : ctxNestedExpected ctx = none)
    (hstep : ∃ pr ∈ steps.zip (execute_plan env steps).1,
      pr.1.validator = some "total_mem_within_pct") :
    (runJob ctx steps env).2 = none ∧
    countVerdicts (runJob ctx steps env).1 = 0 := by
  obtain ⟨pr, hmem, hv⟩ := hstep
  have herr := judgeStep_bare_total_mem_error ctx pr.1 pr.2 hv hexp hnested
  simp only [runJob]
  cases hj : judgeSteps ctx (steps.zip (execute_plan env steps).1) with
  | error e =>
    exact ⟨rfl,
      countVerdicts_of_no_verdict (executePlanFrom_no_verdict env steps 0)⟩
  | ok per =>
    obtain ⟨r, hr⟩ := judgeSteps_ok_all ctx _ per hj pr hmem
    rw [herr] at hr
    cases hr

/-- Witness for C10: a concrete single-step job with the bare validator
name and an empty context never stores a result and never emits a
verdict. -/
theorem bare_validator_kills_job_witness :
    (({} : Ctx).expected_total_gib = none ∧ ctxNestedExpected {} = none ∧
     ∃ pr ∈ [bareStep].zip (execute_plan plainEnv [bareStep]).1,
       pr.1.validator = some "total_mem_within_pct") ∧
    ((runJob {} [bareStep] plainEnv).2 = none ∧
     countVerdicts (runJob {} [bareStep] plainEnv).1 = 0) :=
  ⟨⟨rfl, rfl, by decide⟩,
   bare_validator_kills_job {} [bareStep] plainEnv rfl rfl (by decide)⟩

/-! ### C3 -/

theorem scen_find : findMemTotal scenOut.data = some 16384000 := by decide

theorem scen_stdout : pyTake scenOut OUTPUT_CAP = scenOut := by decide

theorem scen_vspec : parse_validator_spec "total_mem_within_pct(16,2)" =
    ("total_mem_within_pct", [PyArg.int 16, PyArg.int 2]) := by decide

/-- `16384000 kB` parses to `15.62` GiB (`16384000 / 1024² = 15.625`,
rounded half-to-even to two decimals). -/
theorem scen_parse : parse_meminfo scenOut = { total_gib := some (781/50 : ℚ) } := by
  simp only [parse_meminfo, scen_find]
  norm_num [pyRound2, roundHalfEvenZ]

/-- The scenario validator call reports not-ok: `|15.62 - 16| = 0.38`
exceeds the 2% tolerance `0.32`. -/
theorem scen_val :
    total_mem_within_pct { total_gib := some (781/50 : ℚ) } ((16 : ℤ) : ℚ)
      ((2 : ℤ) : ℚ) = (false, scenNote) := by
  unfold total_mem_within_pct ok_note scenNote
  simp only [Option.getD_some, Prod.mk.injEq]
  refine ⟨?_, trivial⟩
  rw [decide_eq_false_iff_not, abs_le]
  push_cast
  rintro ⟨h1, h2⟩
  linarith

theorem scen_judge (rr : RawResult)
    (hst : parse_meminfo rr.stdout = { total_gib := some (781/50 : ℚ) }) :
    judgeStep {} scenStep rr =
      .ok { id := "s1", ok := false, notes := scenNote } := by
  simp only [judgeStep, scenStep, scen_vspec, PARSERS, VALIDATORS, if_true,
    if_false, and_false, true_and, List.cons_ne_nil, total_mem_dyn, pyArgToQ,
    hst, scen_val]

theorem scenarioRunFull :
    runJob {} [scenStep] scenEnv = (scenEvents, some scenResult) := by
  have hrr : parse_meminfo
      ({ runCmd (CmdOutcome.success 0 scenOut "") 7 with
          step_id := scenStep.id } : RawResult).stdout =
      { total_gib := some (781/50 : ℚ) } := by
    show parse_meminfo (pyTake scenOut OUTPUT_CAP) = _
    rw [scen_stdout]
    exact scen_parse
  have hj : judgeSteps {} ([scenStep].zip (execute_plan scenEnv [scenStep]).1) =
      .ok [{ id := "s1", ok := false, notes := scenNote }] := by
    simp only [execute_plan, executePlanFrom, scenEnv, List.zip_cons_cons,
      List.zip_nil_right, judgeSteps]
    rw [scen_judge _ hrr]
  simp only [runJob, hj]
  rfl

/-- C3 counterexample: judging the scenario job — step `s1`, parser
`parse_meminfo`, validator `total_mem_within_pct(16,2)`, remote stdout
`"MemTotal: 16384000 kB"` — does not produce `ok=true` / `"SUCCESS"`:
16384000 kB is 15.625 GiB, outside the 2% band around 16. -/
theorem scenario_not_success :
    ¬((runJob {} [scenStep] scenEnv).2.map (fun r => r.status) = some "SUCCESS" ∧
      (runJob {} [scenStep] scenEnv).2.map
        (fun r => r.per_step.map (fun ps => (ps.id, ps.ok))) =
          some [("s1", true)]) := by
  rw [scenarioRunFull]
  decide

/-- C3 amended: for the scenario job with stdout
`"MemTotal: 16384000 kB"`, the judging phase produces
`per_step = [{id:"s1", ok:false}]` and overall status `"FAILED"`. -/
theorem scenario_judging_failed :
    (runJob {} [scenStep] scenEnv).2.map (fun r => r.status) = some "FAILED" ∧
    (runJob {} [scenStep] scenEnv).2.map
      (fun r => r.per_step.map (fun ps => (ps.id, ps.ok))) =
        some [("s1", false)] := by
  rw [scenarioRunFull]
  exact ⟨rfl, rfl⟩
